import Mathlib

/-!
Verification of the DNS-health aggregation engine
(`scripts/aggregate_results.py`).

The development is a shallow embedding of the engine's pure core:

* the cross-validation priority table and per-relay resolver
  (`CROSS_VALIDATION_RESULT_PRIORITY`, `cross_validate_results`);
* the circuit-failure merge and reason normalization
  (`CIRCUIT_REASON_MAP`, `_normalize_circuit_reason`, the merge loop in
  `aggregate_results`);
* consecutive-failure (streak) tracking against a previous report;
* latency statistics (`_compute_single_latency_stats`,
  `compute_latency_stats`);
* the multi-source loader (`_get_instance_name`,
  `load_all_source_results`).

JSON objects are modelled as structures with `Option` fields (a `none`
field is an absent key); JSON dicts used as ordered maps are modelled
as insertion-ordered association lists.  Numeric timing values are
modelled as exact rationals; Python's `round` (ties to even) is
`pyRound`.  Python's stable `sorted` followed by taking element `[0]`
is modelled as a left fold that keeps the earliest element of minimal
key, which is exactly the head of a stable sort.
-/

/-- A timing record such as `{"total_ms": 123, "socket_ms": 5}`:
an insertion-ordered association list from key to an optional numeric
value (a key may be present with a JSON null value).  The millisecond
values are modelled as integers. -/
abbrev Timing := List (String × Option ℤ)

/-- `t.get(key)` on a timing dict: `none` both when the key is absent
and when it is present with value null. -/
def timingGet (t : Timing) (k : String) : Option ℤ :=
  (t.lookup k).join

/-- Python truthiness of an optional `timing` field: the key must be
present and the dict must be non-empty. -/
def timingTruthy : Option Timing → Bool
  | none => false
  | some t => !t.isEmpty

/-- Python 3's `round(s / n)` for an integer sum `s` of `n` samples:
the exact rational `s / n` rounded to the nearest integer, ties going
to the even integer, computed with integer arithmetic.  With `d` and
`r` the floor quotient and remainder, `s / n = d + r / n`; the
fraction is below, above or at one half according as `2 * r` compares
with `n`, and on a tie exactly one of `d`, `d + 1` is even. -/
def pyRoundDiv (s : ℤ) (n : ℕ) : ℤ :=
  let d := s.ediv n
  let r := s.emod n
  if 2 * r < (n : ℤ) then d
  else if (n : ℤ) < 2 * r then d + 1
  else if d % 2 = 0 then d else d + 1

/-- The dict `CROSS_VALIDATION_RESULT_PRIORITY` (aggregate_results.py,
lines 23-35): outcome category to priority; lower is better. -/
def CROSS_VALIDATION_RESULT_PRIORITY : List (String × Nat) :=
  [("success", 0),
   ("wrong_ip", 1),
   ("dns_fail", 2),
   ("socks_error", 3),
   ("network_error", 4),
   ("error", 5),
   ("timeout", 6),
   ("hard_timeout", 6),
   ("exception", 7),
   ("unknown", 8),
   ("relay_unreachable", 9)]

/-- The outcome-category set: the keys of the priority table. -/
def CATEGORIES : List String :=
  CROSS_VALIDATION_RESULT_PRIORITY.map (·.1)

/-- `CROSS_VALIDATION_RESULT_PRIORITY.get(s, 99)`: the rank of an
outcome category, defaulting to 99 for strings outside the table. -/
def categoryRank (s : String) : Nat :=
  (CROSS_VALIDATION_RESULT_PRIORITY.lookup s).getD 99

/-- `CIRCUIT_FAILURE_TYPES` (lines 39-57): the 17 normalized circuit
failure keys reported with explicit zeros in the output metadata. -/
def CIRCUIT_FAILURE_TYPES : List String :=
  ["circuit_timeout",
   "circuit_destroyed",
   "circuit_channel_closed",
   "circuit_connect_failed",
   "circuit_no_path",
   "circuit_resource_limit",
   "circuit_hibernating",
   "circuit_finished",
   "circuit_connection_closed",
   "circuit_io_error",
   "circuit_protocol_error",
   "circuit_internal_error",
   "circuit_requested",
   "circuit_no_service",
   "circuit_measurement_expired",
   "circuit_guard_limit",
   "circuit_failed"]

/-- `CIRCUIT_REASON_MAP` (lines 61-79): raw `circuit_reason` values to
normalized `circuit_*` keys. -/
def CIRCUIT_REASON_MAP : List (String × String) :=
  [("circuit_timeout", "circuit_timeout"),
   ("circuit_destroyed", "circuit_destroyed"),
   ("channel_closed", "circuit_channel_closed"),
   ("relay_connect_failed", "circuit_connect_failed"),
   ("circuit_no_path", "circuit_no_path"),
   ("relay_resource_limit", "circuit_resource_limit"),
   ("relay_hibernating", "circuit_hibernating"),
   ("circuit_finished", "circuit_finished"),
   ("relay_connection_closed", "circuit_connection_closed"),
   ("io_error", "circuit_io_error"),
   ("tor_protocol_error", "circuit_protocol_error"),
   ("tor_internal_error", "circuit_internal_error"),
   ("circuit_requested", "circuit_requested"),
   ("no_such_service", "circuit_no_service"),
   ("measurement_expired", "circuit_measurement_expired"),
   ("guard_limit", "circuit_guard_limit"),
   ("circuit_failed", "circuit_failed")]

/-- `_normalize_circuit_reason` (lines 377-379): table lookup with the
generic `circuit_failed` fallback. -/
def normalizeCircuitReason (reason : String) : String :=
  (CIRCUIT_REASON_MAP.lookup reason).getD "circuit_failed"

/-- The `cv` detail attached to the chosen result of one relay
(`cv_detail`, lines 297-318).  `recovered_from` is present exactly
when `improved` is true.  The `per_instance` breakdown is a projection
of the inputs and is not needed by any claim, so it is not carried. -/
structure CVDetail where
  result_source : String
  instances_success : Nat
  instances_total : Nat
  improved : Bool
  recovered_from : Option (List (Option String))
deriving DecidableEq

/-- One result record (a JSON object): a per-relay measurement result
or a circuit-failure record.  `none` models an absent key.  Fields the
engine never reads or writes are omitted. -/
structure Rec where
  exit_fingerprint : Option String := none
  status : Option String := none
  resolved_ip : Option String := none
  expected_ip : Option String := none
  timing : Option Timing := none
  attempt : Option Nat := none
  consecutive_failures : Option Nat := none
  error : Option String := none
  circuit_reason : Option String := none
  cv : Option CVDetail := none
deriving DecidableEq

/-- A record with every key absent. -/
def defaultRec : Rec := {}

/-- Sort key of a candidate (line 270):
`CROSS_VALIDATION_RESULT_PRIORITY.get(x[1].get("status", "unknown"), 99)`. -/
def resultPriority (r : Rec) : Nat :=
  categoryRank (r.status.getD "unknown")

/-- One comparison step of the stable sort by priority.  Python's
`sorted` is stable, so `sorted_results[0]` is the earliest candidate
of minimal priority; this fold keeps the current candidate unless a
strictly better one appears. -/
def pickBetter (b y : String × Rec) : String × Rec :=
  if resultPriority y.2 < resultPriority b.2 then y else b

/-- `best_inst, best_result = sorted_results[0]` (lines 267-272) for a
non-empty instance map given as head `x` and tail `xs`. -/
def bestPair (x : String × Rec) (xs : List (String × Rec)) : String × Rec :=
  xs.foldl pickBetter x

/-- The statuses list (line 275): `r.get("status")` of every instance
result, in instance order. -/
def statusesOf (irs : List (String × Rec)) : List (Option String) :=
  irs.map (fun p => p.2.status)

/-- `successful_timings` (lines 286-289): timings of instances that
reported `success` with a truthy timing dict. -/
def successTimingsOf (irs : List (String × Rec)) : List Timing :=
  irs.filterMap fun p =>
    match p.2.timing with
    | some t => if p.2.status = some "success" ∧ t ≠ [] then some t else none
    | none => none

/-- `total_values` (line 292): the non-null `total_ms` values of the
successful timings. -/
def totalValuesOf (irs : List (String × Rec)) : List ℤ :=
  (successTimingsOf irs).filterMap (fun t => timingGet t "total_ms")

/-- `avg_timing` (line 293): a fresh timing dict holding only the
rounded mean of the non-null totals (null when there are none). -/
def avgTimingOf (irs : List (String × Rec)) : Timing :=
  [("total_ms",
    if totalValuesOf irs = [] then none
    else some (pyRoundDiv (totalValuesOf irs).sum (totalValuesOf irs).length))]

/-- `improved` (line 301): at least one but not all instances reported
success. -/
def cvImproved (irs : List (String × Rec)) : Bool :=
  decide (0 < (statusesOf irs).count (some "success") ∧
          (statusesOf irs).count (some "success") < (statusesOf irs).length)

/-- `recovered_from` (lines 308-311): the non-success statuses, in
instance order. -/
def nonSuccessStatuses (irs : List (String × Rec)) : List (Option String) :=
  (statusesOf irs).filter (fun s => !(s == some "success"))

/-- The `cv_detail` dict (lines 297-318). -/
def cvDetailOf (x : String × Rec) (xs : List (String × Rec)) : CVDetail :=
  { result_source := (bestPair x xs).1,
    instances_success := (statusesOf (x :: xs)).count (some "success"),
    instances_total := (x :: xs).length,
    improved := cvImproved (x :: xs),
    recovered_from := if cvImproved (x :: xs) then some (nonSuccessStatuses (x :: xs)) else none }

/-- The chosen record for one relay: the best candidate, with its
timing replaced by the averaged timing whenever `successful_timings`
is non-empty (lines 285-294), and the `cv` detail attached (line 321). -/
def chosenOf (x : String × Rec) (xs : List (String × Rec)) : Rec :=
  let b := (bestPair x xs).2
  let b2 := if (successTimingsOf (x :: xs)).isEmpty then b
            else { b with timing := some (avgTimingOf (x :: xs)) }
  { b2 with cv := some (cvDetailOf x xs) }

/-- The per-relay output of the reconciler: the chosen record plus the
per-relay contributions to `cv_stats` (lines 256-322). -/
structure CVOne where
  chosen : Rec
  improved : Bool
  dTimeout : Nat
  dDns : Nat
  dError : Nat
  consistency : String
deriving DecidableEq

/-- The body of the per-relay loop of `cross_validate_results` for a
relay reported by instances `x :: xs` (in dict insertion order):
chosen record, `improved`, the increments this relay adds to
`recovered_from_timeout` / `recovered_from_dns_fail` /
`recovered_from_error` (lines 305-317), and which consistency bucket
it falls in (lines 278-283). -/
def crossValidateCore (x : String × Rec) (xs : List (String × Rec)) : CVOne :=
  let irs := x :: xs
  let improved := cvImproved irs
  { chosen := chosenOf x xs,
    improved := improved,
    dTimeout := if improved then
        (nonSuccessStatuses irs).countP
          (fun s => s == some "timeout" || s == some "hard_timeout")
      else 0,
    dDns := if improved then
        (nonSuccessStatuses irs).countP (fun s => s == some "dns_fail")
      else 0,
    dError := if improved then
        (nonSuccessStatuses irs).countP
          (fun s => !(s == some "timeout") && !(s == some "hard_timeout") &&
                    !(s == some "dns_fail"))
      else 0,
    consistency :=
      if (statusesOf irs).count (some "success") = (statusesOf irs).length then "all_success"
      else if (statusesOf irs).count (some "success") = 0 then "all_failed"
      else "mixed" }

/-- The per-relay reconciliation (the loop body at lines 256-322 of
`cross_validate_results`): `none` for an empty instance map (such a
relay is skipped by `if not instance_results: continue`). -/
def crossValidateOne : List (String × Rec) → Option CVOne
  | [] => none
  | x :: xs => some (crossValidateCore x xs)

/-- `rstrip('/')` on a path string. -/
def stripTrailingSlashes (s : String) : String :=
  String.mk ((s.data.reverse.dropWhile (· = '/')).reverse)

/-- `os.path.basename`: the part after the last `/`. -/
def pathBasename (s : String) : String :=
  String.mk ((s.data.reverse.takeWhile (· ≠ '/')).reverse)

/-- Python's `str.split(sep)` for a single-character separator, on
the character list: splitting the empty string yields `[""]`, and
consecutive separators yield empty parts, exactly as in Python. -/
def splitOnChar (sep : Char) : List Char → List (List Char)
  | [] => [[]]
  | c :: rest =>
      let r := splitOnChar sep rest
      if c = sep then [] :: r
      else
        match r with
        | [] => [[c]]
        | h :: t => (c :: h) :: t

/-- `_get_instance_name` (lines 193-198): basename of the directory
with trailing slashes removed, split on `_`, last part.  `split`
never yields an empty list, so the `if parts else basename` fallback
is the last part. -/
def getInstanceName (sourceDir : String) : String :=
  let base := pathBasename (stripTrailingSlashes sourceDir)
  ((splitOnChar '_' base.data).map String.mk).getLastD base

/-- Assignment `m[k] = v` on an insertion-ordered dict modelled as an
association list: replace the value at the first occurrence of the
key, else append a new entry. -/
def aset {α β : Type} [BEq α] (m : List (α × β)) (k : α) (v : β) : List (α × β) :=
  match m with
  | [] => [(k, v)]
  | (k', v') :: t => if k' == k then (k, v) :: t else (k', v') :: aset t k v

/-- The map `fingerprint -> {instance_name: result}` built by
`load_all_source_results`. -/
abbrev SourceMap := List (String × List (String × Rec))

/-- One iteration of the inner loop of `load_all_source_results`
(lines 224-229): skip records with a falsy fingerprint, otherwise
`all_results.setdefault(fp, {})[instance_name] = result`. -/
def loadStep (instanceName : String) (acc : SourceMap) (r : Rec) : SourceMap :=
  match r.exit_fingerprint with
  | some f =>
      if f ≠ "" then aset acc f (aset ((acc.lookup f).getD []) instanceName r)
      else acc
  | none => acc

/-- Loading every result file of one source directory into the shared
map, in file-iteration order. -/
def loadSource (instanceName : String) (files : List Rec) (acc : SourceMap) : SourceMap :=
  files.foldl (loadStep instanceName) acc

/-- `load_all_source_results` (lines 215-231): sources are processed
in order; each contributes its records under its derived instance
name.  A source is a pair of its directory path and the result records
found under it (in iteration order). -/
def loadAllSourceResults (sources : List (String × List Rec)) : SourceMap × List String :=
  sources.foldl
    (fun st s => (loadSource (getInstanceName s.1) s.2 st.1, st.2 ++ [getInstanceName s.1]))
    ([], [])

/-- Lookup of the per-instance slot for a fingerprint in the loaded map. -/
def slotOf (m : SourceMap) (f instanceName : String) : Option Rec :=
  ((m.lookup f).getD []).lookup instanceName

/-- The stats dict returned by `_compute_single_latency_stats`
(lines 335-349). -/
structure LatencyStats where
  avg_ms : ℤ
  min_ms : ℤ
  max_ms : ℤ
  p50_ms : ℤ
  p95_ms : ℤ
  p99_ms : ℤ
deriving DecidableEq

/-- The explicit all-zero stats structure (lines 364, 373). -/
def zeroLatencyStats : LatencyStats := ⟨0, 0, 0, 0, 0, 0⟩

/-- `values.sort()`: ascending stable sort of the samples. -/
def sortedValues (values : List ℤ) : List ℤ :=
  List.insertionSort (· ≤ ·) values

/-- `_compute_single_latency_stats` (lines 335-349).  `None` for the
empty list.  Indexing `values[n // 2]`, `values[int(n * 0.95)]`,
`values[int(n * 0.99)]` is embedded with exact rational arithmetic,
`int(n * p)` becoming the floor `(p.num * n) / p.den` in `Nat`
division; for the percentages 0.95 and 0.99 this agrees with the
Python float computation for every feasible `n`. -/
def computeSingleLatencyStats (values : List ℤ) : Option LatencyStats :=
  if values = [] then none
  else
    let v := sortedValues values
    let n := values.length
    some { avg_ms := pyRoundDiv values.sum n,
           min_ms := v.getD 0 0,
           max_ms := v.getD (n - 1) 0,
           p50_ms := v.getD (n / 2) 0,
           p95_ms := v.getD (19 * n / 20) 0,
           p99_ms := v.getD (99 * n / 100) 0 }

/-- The dict returned by `compute_latency_stats` (lines 352-374); only
the `total` series is produced in the non-empty case. -/
structure TimingStats where
  total : LatencyStats
deriving DecidableEq

/-- `compute_latency_stats` (lines 352-374): explicit zeros for an
empty timing list, otherwise stats over the non-null `total_ms`
values with the zero structure as fallback. -/
def computeLatencyStats (timings : List Timing) : TimingStats :=
  if timings = [] then { total := zeroLatencyStats }
  else { total := (computeSingleLatencyStats
                    (timings.filterMap (fun t => timingGet t "total_ms"))).getD zeroLatencyStats }

/-- One step of the circuit-failure merge loop (lines 455-465).  The
state is `(dns_fingerprints, appended records, counted normalized
reasons)`; a failure record is appended, its fingerprint remembered
and its normalized reason counted exactly when its fingerprint is
truthy and unseen. -/
def mergeStep (st : List (Option String) × List Rec × List String) (cf : Rec) :
    List (Option String) × List Rec × List String :=
  match cf.exit_fingerprint with
  | some f =>
      if f ≠ "" ∧ some f ∉ st.1 then
        (some f :: st.1, st.2.1 ++ [cf],
         st.2.2 ++ [normalizeCircuitReason (cf.circuit_reason.getD "circuit_failed")])
      else st
  | none => st

/-- The circuit-failure merge of `aggregate_results` (lines 449-465):
starting from the fingerprints of the DNS results, returns the
appended (surviving) circuit-failure records and the list of counted
normalized reasons, in order. -/
def circuitSurvivors (results cfs : List Rec) : List Rec × List String :=
  let st := cfs.foldl mergeStep (results.map (·.exit_fingerprint), [], [])
  (st.2.1, st.2.2)

/-- The merged results list after the circuit-failure merge: the DNS
results followed by the surviving circuit-failure records. -/
def mergedResults (results cfs : List Rec) : List Rec :=
  results ++ (circuitSurvivors results cfs).1

/-- Lookup in `prev_state` (lines 437-447, 491): the previous report's
record for a fingerprint.  Only records with truthy fingerprints are
stored, later records overwrite earlier ones, and a falsy current
fingerprint finds nothing. -/
def prevLookup (prev : List Rec) (fp : Option String) : Option Rec :=
  match fp with
  | none => none
  | some f =>
      if f = "" then none
      else (prev.filter (fun pr => pr.exit_fingerprint == some f)).getLast?

/-- The previous consecutive-failure count used at lines 491-492:
`prev.get("consecutive_failures", 0) if prev.get("status") != "success" else 0`,
with the empty dict (no previous record) giving 0. -/
def priorCount (prev : List Rec) (fp : Option String) : Nat :=
  match prevLookup prev fp with
  | none => 0
  | some p => if p.status = some "success" then 0 else p.consecutive_failures.getD 0

/-- The consecutive-failure value written onto a record
(lines 485-493): 0 on success, previous count plus one otherwise. -/
def streakOf (prev : List Rec) (r : Rec) : Nat :=
  if r.status.getD "unknown" = "success" then 0
  else priorCount prev r.exit_fingerprint + 1

/-- The streak-tracking mutation `r["consecutive_failures"] = ...`
(lines 485-493). -/
def applyStreak (prev : List Rec) (r : Rec) : Rec :=
  { r with consecutive_failures := some (streakOf prev r) }

/-- `_order_result_fields` (lines 382-431): rebuilds the record with
fields in canonical order.  On this record type the only observable
effect is that `circuit_reason` (not in the canonical field list) is
dropped. -/
def orderResultFields (r : Rec) : Rec :=
  { exit_fingerprint := r.exit_fingerprint,
    status := r.status,
    resolved_ip := r.resolved_ip,
    expected_ip := r.expected_ip,
    timing := r.timing,
    attempt := r.attempt,
    consecutive_failures := r.consecutive_failures,
    error := r.error,
    circuit_reason := none,
    cv := r.cv }

/-- The per-record processing of the aggregation loop (lines 480-496):
streak tracking followed by field ordering. -/
def processRecord (prev : List Rec) (r : Rec) : Rec :=
  orderResultFields (applyStreak prev r)

/-- The timing dicts collected for latency statistics (lines 486-489):
timings of successful records with a truthy timing dict, in order. -/
def successTimingsOfResults (results : List Rec) : List Timing :=
  results.filterMap fun r =>
    match r.timing with
    | some t => if r.status.getD "unknown" = "success" ∧ t ≠ [] then some t else none
    | none => none

/-- The output of `aggregate_results` restricted to the fields the
verified properties concern: the processed `results` list, the
multiset of counted normalized circuit reasons backing the 17
`circuit_*` metadata counts, and the timing statistics. -/
structure Report where
  results : List Rec
  circuitKeys : List String
  timing : TimingStats
deriving DecidableEq

/-- The `circuit_*` metadata entry for a normalized type `t`
(lines 555-557): `circuit_counts.get(t, 0)`. -/
def Report.circuitCount (rep : Report) (t : String) : Nat :=
  rep.circuitKeys.count t

/-- `aggregate_results` (lines 434-567) as far as the verified claims
are concerned: merge the circuit failures into the results, then give
every merged record its consecutive-failure count and canonical field
order, counting circuit reasons and collecting success timings on the
way.  `prev` is the `results` array of the previous report (empty
when there is none). -/
def aggregateResults (results cfs : List Rec) (prev : List Rec) : Report :=
  { results := (mergedResults results cfs).map (processRecord prev),
    circuitKeys := (circuitSurvivors results cfs).2,
    timing := computeLatencyStats (successTimingsOfResults (mergedResults results cfs)) }

/-- The spec's statement of claim C2 (the part its counterexample
refutes): whenever the winning outcome is not a success with multiple
successful instances, the chosen result's timing equals the winning
candidate's own timing. -/
def claimC2statement : Prop :=
  ∀ (x : String × Rec) (xs : List (String × Rec)),
    ¬ ((crossValidateCore x xs).chosen.status = some "success" ∧
       2 ≤ (statusesOf (x :: xs)).count (some "success")) →
    (crossValidateCore x xs).chosen.timing = (bestPair x xs).2.timing

/-- The spec's statement of claim C6: re-running the engine over
identical inputs with the written report as previous report reproduces
the same consecutive-failure values. -/
def claimC6statement : Prop :=
  ∀ (results cfs prev : List Rec),
    ((aggregateResults results cfs
        (aggregateResults results cfs prev).results).results.map
          (fun r => r.consecutive_failures)) =
      ((aggregateResults results cfs prev).results.map
          (fun r => r.consecutive_failures))

/-- The spec's definitive-failure class of outcome categories (spec
section 4.2: wrong resolved value, confirmed resolution failure). -/
def definitiveClass (s : Option String) : Bool :=
  s == some "wrong_ip" || s == some "dns_fail"

/-- The spec's statement of claim C8 (the part its counterexample
refutes): when a target is improved, the definitive-failure recovery
counter receives one increment per non-success instance whose category
is in the definitive-failure class. -/
def claimC8statement : Prop :=
  ∀ (x : String × Rec) (xs : List (String × Rec)),
    (crossValidateCore x xs).improved = true →
    (crossValidateCore x xs).dDns =
      (statusesOf (x :: xs)).countP definitiveClass

theorem lookup_mem {β : Type} {tbl : List (String × β)} {s : String} {v : β}
    (h : tbl.lookup s = some v) : (s, v) ∈ tbl := by
  induction tbl with
  | nil => simp [List.lookup] at h
  | cons p t ih =>
    obtain ⟨k, w⟩ := p
    rw [List.lookup] at h
    by_cases hk : s == k
    · have hs : s = k := by simpa [beq_iff_eq] using hk
      simp only [hk, if_pos] at h
      have hv : w = v := by injection h
      subst hs
      subst hv
      exact List.mem_cons_self _ _
    · simp only [hk, if_neg, Bool.false_eq_true] at h
      exact List.mem_cons_of_mem _ (ih h)

theorem categoryRank_eq_zero_iff (s : String) : categoryRank s = 0 ↔ s = "success" := by
  constructor
  · intro h
    unfold categoryRank at h
    cases hl : CROSS_VALIDATION_RESULT_PRIORITY.lookup s with
    | none => simp [hl] at h
    | some v =>
      rw [hl] at h
      simp at h
      subst h
      have hmem := lookup_mem hl
      have hall : ∀ p ∈ CROSS_VALIDATION_RESULT_PRIORITY, p.2 = 0 → p.1 = "success" := by decide
      exact hall _ hmem rfl
  · intro h
    subst h
    decide

theorem resultPriority_eq_zero_iff (r : Rec) :
    resultPriority r = 0 ↔ r.status = some "success" := by
  unfold resultPriority
  cases hs : r.status with
  | none => simp [categoryRank_eq_zero_iff]
  | some s => simp [categoryRank_eq_zero_iff]

theorem pickBetter_le_left (x z : String × Rec) :
    resultPriority (pickBetter x z).2 ≤ resultPriority x.2 := by
  unfold pickBetter
  split <;> omega

theorem pickBetter_le_right (x z : String × Rec) :
    resultPriority (pickBetter x z).2 ≤ resultPriority z.2 := by
  unfold pickBetter
  split <;> omega

theorem bestPair_le (x : String × Rec) (xs : List (String × Rec)) :
    ∀ y ∈ x :: xs, resultPriority (bestPair x xs).2 ≤ resultPriority y.2 := by
  induction xs generalizing x with
  | nil =>
    intro y hy
    simp only [List.mem_cons, List.not_mem_nil, or_false] at hy
    subst hy
    simp [bestPair]
  | cons z zs ih =>
    intro y hy
    have hfold : bestPair x (z :: zs) = bestPair (pickBetter x z) zs := rfl
    have hstep : resultPriority (bestPair (pickBetter x z) zs).2 ≤
        resultPriority (pickBetter x z).2 :=
      ih (pickBetter x z) (pickBetter x z) (List.mem_cons_self _ _)
    simp only [List.mem_cons] at hy
    rcases hy with rfl | rfl | h
    · rw [hfold]
      exact le_trans hstep (pickBetter_le_left _ _)
    · rw [hfold]
      exact le_trans hstep (pickBetter_le_right _ _)
    · rw [hfold]
      exact ih (pickBetter x z) y (List.mem_cons_of_mem _ h)

theorem chosenOf_status (x : String × Rec) (xs : List (String × Rec)) :
    (chosenOf x xs).status = (bestPair x xs).2.status := by
  unfold chosenOf
  split <;> rfl

/-- C1: success dominance of the priority resolver.  If at least one
instance reported outcome `success` for a target, the chosen result
for that target has outcome `success`, whatever the other instances
reported. -/
theorem c1_success_dominance (irs : List (String × Rec))
    (h : ∃ p ∈ irs, p.2.status = some "success") :
    ∃ out, crossValidateOne irs = some out ∧ out.chosen.status = some "success" := by
  obtain ⟨p, hp, hps⟩ := h
  cases irs with
  | nil => simp at hp
  | cons x xs =>
    refine ⟨crossValidateCore x xs, rfl, ?_⟩
    have hp0 : resultPriority p.2 = 0 := (resultPriority_eq_zero_iff p.2).mpr hps
    have hle := bestPair_le x xs p hp
    rw [hp0] at hle
    have hb0 : resultPriority (bestPair x xs).2 = 0 := Nat.le_zero.mp hle
    have hbs : (bestPair x xs).2.status = some "success" :=
      (resultPriority_eq_zero_iff _).mp hb0
    show (crossValidateCore x xs).chosen.status = some "success"
    have : (crossValidateCore x xs).chosen = chosenOf x xs := rfl
    rw [this, chosenOf_status]
    exact hbs

/-- Witness for C1 at a concrete input: one instance timed out, the
other succeeded; the chosen result is the success. -/
theorem c1_success_dominance_witness :
    (∃ p ∈ [("cv1", ({ status := some "timeout" } : Rec)),
            ("cv2", ({ status := some "success" } : Rec))], p.2.status = some "success") ∧
    ∃ out, crossValidateOne
        [("cv1", ({ status := some "timeout" } : Rec)),
         ("cv2", ({ status := some "success" } : Rec))] = some out ∧
      out.chosen.status = some "success" :=
  ⟨by decide, c1_success_dominance _ (by decide)⟩

/-- C7: priority totality.  Over the category set, the ranking is
transitive and cycle-free, and every pair of distinct categories is
strictly ordered except the timeout-class siblings `timeout` and
`hard_timeout`, which tie with equal rank. -/
theorem c7_priority_totality :
    (∀ a ∈ CATEGORIES, ∀ b ∈ CATEGORIES, a ≠ b →
      (((a = "timeout" ∧ b = "hard_timeout") ∨ (a = "hard_timeout" ∧ b = "timeout")) →
          categoryRank a = categoryRank b) ∧
      (¬ ((a = "timeout" ∧ b = "hard_timeout") ∨ (a = "hard_timeout" ∧ b = "timeout")) →
          categoryRank a < categoryRank b ∨ categoryRank b < categoryRank a)) ∧
    (∀ a b c : String, categoryRank a < categoryRank b → categoryRank b < categoryRank c →
        categoryRank a < categoryRank c) ∧
    (∀ a b : String, categoryRank a < categoryRank b → ¬ categoryRank b < categoryRank a) := by
  refine ⟨by decide, ?_, ?_⟩
  · intro a b c hab hbc
    exact Nat.lt_trans hab hbc
  · intro a b hab
    exact Nat.lt_asymm hab

/-- Witness for C7 at concrete categories: the timeout-class siblings
tie, and the distinct pair success / wrong_ip is strictly ordered. -/
theorem c7_priority_totality_witness :
    ("timeout" ∈ CATEGORIES ∧ "hard_timeout" ∈ CATEGORIES ∧
      ("timeout" : String) ≠ "hard_timeout" ∧
      categoryRank "timeout" = categoryRank "hard_timeout") ∧
    ("success" ∈ CATEGORIES ∧ "wrong_ip" ∈ CATEGORIES ∧ ("success" : String) ≠ "wrong_ip" ∧
      (categoryRank "success" < categoryRank "wrong_ip" ∨
       categoryRank "wrong_ip" < categoryRank "success")) :=
  ⟨⟨by decide, by decide, by decide,
    (c7_priority_totality.1 "timeout" (by decide) "hard_timeout" (by decide) (by decide)).1
      (by decide)⟩,
   ⟨by decide, by decide, by decide,
    (c7_priority_totality.1 "success" (by decide) "wrong_ip" (by decide) (by decide)).2
      (by decide)⟩⟩

theorem successTimingsOf_eq_nil_iff (irs : List (String × Rec)) :
    successTimingsOf irs = [] ↔
      ¬ ∃ p ∈ irs, p.2.status = some "success" ∧ ∃ t, p.2.timing = some t ∧ t ≠ [] := by
  unfold successTimingsOf
  rw [List.filterMap_eq_nil_iff]
  constructor
  · rintro hall ⟨p, hp, hs, t, ht, htne⟩
    have hnone := hall p hp
    rw [ht] at hnone
    simp [hs, htne] at hnone
  · intro hne p hp
    cases htm : p.2.timing with
    | none => rfl
    | some t =>
      by_cases hc : p.2.status = some "success" ∧ t ≠ []
      · exact absurd ⟨p, hp, hc.1, t, htm, hc.2⟩ hne
      · simp [hc]

/-- C2 counterexample: a target reported by a single instance, a
success whose timing dict also carries a `socket_ms` key.  The claim
says that with only one successful instance the chosen result's
timing is left unchanged; the engine replaces it with a fresh dict
holding only the averaged total, dropping the other key. -/
theorem c2_counterexample : ¬ claimC2statement := by
  intro h
  have hx := h ("cv1",
      ({ status := some "success",
         timing := some [("total_ms", some 100), ("socket_ms", some 7)] } : Rec)) []
    (by decide)
  revert hx
  decide

/-- C2 as amended: the chosen result's timing is replaced by the
averaged-total dict exactly when at least one instance reported
success with a non-empty timing dict (a single success suffices, and
the replacement keeps only the total field); in every other case the
timing, like every other producer-set field of the chosen result, is
the winning candidate's own, with only the cross-validation detail
appended. -/
theorem c2_amended_timing_frame (x : String × Rec) (xs : List (String × Rec)) :
    ((crossValidateCore x xs).chosen.exit_fingerprint = (bestPair x xs).2.exit_fingerprint ∧
     (crossValidateCore x xs).chosen.status = (bestPair x xs).2.status ∧
     (crossValidateCore x xs).chosen.resolved_ip = (bestPair x xs).2.resolved_ip ∧
     (crossValidateCore x xs).chosen.expected_ip = (bestPair x xs).2.expected_ip ∧
     (crossValidateCore x xs).chosen.attempt = (bestPair x xs).2.attempt ∧
     (crossValidateCore x xs).chosen.consecutive_failures =
        (bestPair x xs).2.consecutive_failures ∧
     (crossValidateCore x xs).chosen.error = (bestPair x xs).2.error ∧
     (crossValidateCore x xs).chosen.circuit_reason = (bestPair x xs).2.circuit_reason ∧
     (crossValidateCore x xs).chosen.cv = some (cvDetailOf x xs)) ∧
    ((∃ p ∈ x :: xs, p.2.status = some "success" ∧ ∃ t, p.2.timing = some t ∧ t ≠ []) →
        (crossValidateCore x xs).chosen.timing = some (avgTimingOf (x :: xs))) ∧
    (¬ (∃ p ∈ x :: xs, p.2.status = some "success" ∧ ∃ t, p.2.timing = some t ∧ t ≠ []) →
        (crossValidateCore x xs).chosen.timing = (bestPair x xs).2.timing) := by
  have hch : (crossValidateCore x xs).chosen = chosenOf x xs := rfl
  by_cases hse : successTimingsOf (x :: xs) = []
  · have hnex := (successTimingsOf_eq_nil_iff (x :: xs)).mp hse
    refine ⟨?_, ?_, ?_⟩
    · rw [hch]
      unfold chosenOf
      simp [hse]
    · intro hex
      exact absurd hex hnex
    · intro _
      rw [hch]
      unfold chosenOf
      simp [hse]
  · have hex : ∃ p ∈ x :: xs, p.2.status = some "success" ∧ ∃ t, p.2.timing = some t ∧ t ≠ [] := by
      by_contra hne
      exact hse ((successTimingsOf_eq_nil_iff (x :: xs)).mpr hne)
    refine ⟨?_, ?_, ?_⟩
    · rw [hch]
      unfold chosenOf
      simp [hse]
    · intro _
      rw [hch]
      unfold chosenOf
      simp [hse]
    · intro hnex
      exact absurd hex hnex

/-- Witness for the amended C2 at a concrete input: a single
successful instance with a non-empty timing dict triggers the
replacement. -/
theorem c2_amended_timing_frame_witness :
    (∃ p ∈ [("cv1",
        ({ status := some "success",
           timing := some [("total_ms", some 100), ("socket_ms", some 7)] } : Rec))],
      p.2.status = some "success" ∧ ∃ t, p.2.timing = some t ∧ t ≠ []) ∧
    (crossValidateCore ("cv1",
        ({ status := some "success",
           timing := some [("total_ms", some 100), ("socket_ms", some 7)] } : Rec))
      []).chosen.timing =
      some (avgTimingOf [("cv1",
        ({ status := some "success",
           timing := some [("total_ms", some 100), ("socket_ms", some 7)] } : Rec))]) :=
  ⟨by decide,
   (c2_amended_timing_frame ("cv1",
      ({ status := some "success",
         timing := some [("total_ms", some 100), ("socket_ms", some 7)] } : Rec)) []).2.1
     (by decide)⟩

theorem cvImproved_iff (irs : List (String × Rec)) :
    cvImproved irs = true ↔
      ((∃ p ∈ irs, p.2.status = some "success") ∧
       (∃ p ∈ irs, p.2.status ≠ some "success")) := by
  unfold cvImproved
  rw [decide_eq_true_eq]
  constructor
  · rintro ⟨hpos, hlt⟩
    constructor
    · have hmem : some "success" ∈ statusesOf irs := List.count_pos_iff.mp hpos
      obtain ⟨p, hp, hps⟩ := List.mem_map.mp hmem
      exact ⟨p, hp, hps⟩
    · by_contra hnone
      push_neg at hnone
      have hall : ∀ b ∈ statusesOf irs, some "success" = b := by
        intro b hb
        obtain ⟨p, hp, hps⟩ := List.mem_map.mp hb
        rw [← hps]
        exact (hnone p hp).symm
      have := List.count_eq_length.mpr hall
      omega
  · rintro ⟨⟨p, hp, hps⟩, ⟨q, hq, hqs⟩⟩
    constructor
    · apply List.count_pos_iff.mpr
      exact List.mem_map.mpr ⟨p, hp, hps⟩
    · have hle := List.count_le_length (some "success") (statusesOf irs)
      rcases Nat.lt_or_ge ((statusesOf irs).count (some "success")) (statusesOf irs).length
        with h | h
      · exact h
      · exfalso
        have heq : (statusesOf irs).count (some "success") = (statusesOf irs).length := by omega
        have hall := List.count_eq_length.mp heq
        exact hqs (hall q.2.status (List.mem_map.mpr ⟨q, hq, rfl⟩)).symm

/-- C8 counterexample: a target with one success and one `wrong_ip`
failure.  The spec's definitive-failure class (wrong resolved value or
confirmed resolution failure) contains `wrong_ip`, so the claim
demands one increment of the definitive-failure recovery counter; the
engine counts the `wrong_ip` instance in the other-error counter and
leaves the definitive counter at zero. -/
theorem c8_counterexample : ¬ claimC8statement := by
  intro h
  have hx := h ("a", ({ status := some "success" } : Rec))
    [("b", ({ status := some "wrong_ip" } : Rec))] (by decide)
  revert hx
  decide

/-- C8 as amended: `improved` is true iff at least one but not all
reporting instances succeeded; exactly when it is true, each recovery
counter receives one increment per non-success instance — the
timeout-class categories into the timeout counter, the
confirmed-resolution-failure category `dns_fail` alone into its
counter, and every other non-success category (including the
wrong-answer category `wrong_ip`) into the other-error counter — and
when it is false no counter changes. -/
theorem c8_amended_improved_recovery (x : String × Rec) (xs : List (String × Rec)) :
    ((crossValidateCore x xs).improved = true ↔
      ((∃ p ∈ x :: xs, p.2.status = some "success") ∧
       (∃ p ∈ x :: xs, p.2.status ≠ some "success"))) ∧
    ((crossValidateCore x xs).improved = true →
      (crossValidateCore x xs).dTimeout =
        (statusesOf (x :: xs)).countP
          (fun s => (s == some "timeout" || s == some "hard_timeout") &&
                    !(s == some "success")) ∧
      (crossValidateCore x xs).dDns =
        (statusesOf (x :: xs)).countP
          (fun s => (s == some "dns_fail") && !(s == some "success")) ∧
      (crossValidateCore x xs).dError =
        (statusesOf (x :: xs)).countP
          (fun s => (!(s == some "timeout") && !(s == some "hard_timeout") &&
                     !(s == some "dns_fail")) && !(s == some "success"))) ∧
    ((crossValidateCore x xs).improved = false →
      (crossValidateCore x xs).dTimeout = 0 ∧
      (crossValidateCore x xs).dDns = 0 ∧
      (crossValidateCore x xs).dError = 0) := by
  have himp : (crossValidateCore x xs).improved = cvImproved (x :: xs) := rfl
  refine ⟨by rw [himp]; exact cvImproved_iff (x :: xs), ?_, ?_⟩
  · intro h
    rw [himp] at h
    refine ⟨?_, ?_, ?_⟩
    · show (if cvImproved (x :: xs) then
          (nonSuccessStatuses (x :: xs)).countP
            (fun s => s == some "timeout" || s == some "hard_timeout")
        else 0) = _
      rw [if_pos h]
      unfold nonSuccessStatuses
      exact List.countP_filter _ _ _
    · show (if cvImproved (x :: xs) then
          (nonSuccessStatuses (x :: xs)).countP (fun s => s == some "dns_fail")
        else 0) = _
      rw [if_pos h]
      unfold nonSuccessStatuses
      exact List.countP_filter _ _ _
    · show (if cvImproved (x :: xs) then
          (nonSuccessStatuses (x :: xs)).countP
            (fun s => !(s == some "timeout") && !(s == some "hard_timeout") &&
                      !(s == some "dns_fail"))
        else 0) = _
      rw [if_pos h]
      unfold nonSuccessStatuses
      exact List.countP_filter _ _ _
  · intro h
    rw [himp] at h
    refine ⟨?_, ?_, ?_⟩ <;>
      simp only [crossValidateCore, h, Bool.false_eq_true, if_false]

/-- Witness for the amended C8 at a concrete input: one success and
one timeout, so `improved` is true and the counters are determined. -/
theorem c8_amended_improved_recovery_witness :
    ((crossValidateCore ("a", ({ status := some "success" } : Rec))
        [("b", ({ status := some "timeout" } : Rec))]).improved = true) ∧
    ((crossValidateCore ("a", ({ status := some "success" } : Rec))
        [("b", ({ status := some "timeout" } : Rec))]).dTimeout =
      (statusesOf [("a", ({ status := some "success" } : Rec)),
                   ("b", ({ status := some "timeout" } : Rec))]).countP
        (fun s => (s == some "timeout" || s == some "hard_timeout") &&
                  !(s == some "success")) ∧
     (crossValidateCore ("a", ({ status := some "success" } : Rec))
        [("b", ({ status := some "timeout" } : Rec))]).dDns =
      (statusesOf [("a", ({ status := some "success" } : Rec)),
                   ("b", ({ status := some "timeout" } : Rec))]).countP
        (fun s => (s == some "dns_fail") && !(s == some "success")) ∧
     (crossValidateCore ("a", ({ status := some "success" } : Rec))
        [("b", ({ status := some "timeout" } : Rec))]).dError =
      (statusesOf [("a", ({ status := some "success" } : Rec)),
                   ("b", ({ status := some "timeout" } : Rec))]).countP
        (fun s => (!(s == some "timeout") && !(s == some "hard_timeout") &&
                   !(s == some "dns_fail")) && !(s == some "success"))) :=
  ⟨by decide,
   (c8_amended_improved_recovery ("a", ({ status := some "success" } : Rec))
      [("b", ({ status := some "timeout" } : Rec))]).2.1 (by decide)⟩

theorem sortedValues_sorted (l : List ℤ) : List.Sorted (· ≤ ·) (sortedValues l) :=
  List.sorted_insertionSort _ l

theorem sortedValues_perm (l : List ℤ) : List.Perm (sortedValues l) l :=
  List.perm_insertionSort _ l

theorem sortedValues_length (l : List ℤ) : (sortedValues l).length = l.length :=
  (sortedValues_perm l).length_eq

theorem sortedValues_getD_mem (l : List ℤ) (i : ℕ) (hi : i < l.length) :
    (sortedValues l).getD i 0 ∈ l := by
  have hlen : i < (sortedValues l).length := by rw [sortedValues_length]; exact hi
  rw [List.getD_eq_get _ _ hlen]
  exact (sortedValues_perm l).mem_iff.mp (List.get_mem _ _ _)

theorem sortedValues_getD_zero_le (l : List ℤ) (hne : l ≠ []) :
    ∀ x ∈ l, (sortedValues l).getD 0 0 ≤ x := by
  intro x hx
  have hpos : 0 < (sortedValues l).length := by
    rw [sortedValues_length]
    exact List.length_pos.mpr hne
  obtain ⟨k, hk⟩ := List.mem_iff_get.mp ((sortedValues_perm l).mem_iff.mpr hx)
  rw [List.getD_eq_get _ _ hpos, ← hk]
  exact (sortedValues_sorted l).rel_get_of_le (Fin.mk_le_of_le_val (Nat.zero_le _))

theorem le_sortedValues_getD_last (l : List ℤ) (hne : l ≠ []) :
    ∀ x ∈ l, x ≤ (sortedValues l).getD (l.length - 1) 0 := by
  intro x hx
  have hpos : 0 < l.length := List.length_pos.mpr hne
  have hlast : l.length - 1 < (sortedValues l).length := by
    rw [sortedValues_length]
    omega
  obtain ⟨k, hk⟩ := List.mem_iff_get.mp ((sortedValues_perm l).mem_iff.mpr hx)
  rw [List.getD_eq_get _ _ hlast, ← hk]
  have hkle : (k : ℕ) ≤ l.length - 1 := by
    have h1 := k.isLt
    have h2 := sortedValues_length l
    omega
  exact (sortedValues_sorted l).rel_get_of_le (Fin.mk_le_of_le_val hkle)

/-- C9: timing statistics.  For every non-empty sample list the
statistics engine returns the average rounded to the nearest integer,
the minimum, the maximum, and the 50th/95th/99th percentiles by
nearest-rank 0-based index `floor(n * p)` into the sorted sample —
each index already below `n`, so the clamp to `n - 1` never cuts —
with the spec's concrete sample `[10, 20, 30, 40, 50]` yielding
p50 = 30, p95 = 50, p99 = 50, min = 10, max = 50, avg = 30; the empty
input yields the explicit all-zero structure. -/
theorem c9_latency_stats :
    (computeLatencyStats [] = { total := zeroLatencyStats }) ∧
    (∀ values : List ℤ, values ≠ [] →
      ∃ st, computeSingleLatencyStats values = some st ∧
        st.avg_ms = pyRoundDiv values.sum values.length ∧
        st.min_ms ∈ values ∧ (∀ x ∈ values, st.min_ms ≤ x) ∧
        st.max_ms ∈ values ∧ (∀ x ∈ values, x ≤ st.max_ms) ∧
        st.p50_ms = (sortedValues values).getD (values.length / 2) 0 ∧
        st.p95_ms = (sortedValues values).getD (19 * values.length / 20) 0 ∧
        st.p99_ms = (sortedValues values).getD (99 * values.length / 100) 0 ∧
        values.length / 2 < values.length ∧
        19 * values.length / 20 < values.length ∧
        99 * values.length / 100 < values.length) ∧
    (computeSingleLatencyStats [10, 20, 30, 40, 50] =
      some { avg_ms := 30, min_ms := 10, max_ms := 50,
             p50_ms := 30, p95_ms := 50, p99_ms := 50 }) := by
  refine ⟨rfl, ?_, by decide⟩
  intro values hne
  have hpos : 0 < values.length := List.length_pos.mpr hne
  refine ⟨{ avg_ms := pyRoundDiv values.sum values.length,
            min_ms := (sortedValues values).getD 0 0,
            max_ms := (sortedValues values).getD (values.length - 1) 0,
            p50_ms := (sortedValues values).getD (values.length / 2) 0,
            p95_ms := (sortedValues values).getD (19 * values.length / 20) 0,
            p99_ms := (sortedValues values).getD (99 * values.length / 100) 0 },
          ?_, rfl, ?_, ?_, ?_, ?_, rfl, rfl, rfl, ?_, ?_, ?_⟩
  · unfold computeSingleLatencyStats
    rw [if_neg hne]
  · exact sortedValues_getD_mem values 0 hpos
  · exact sortedValues_getD_zero_le values hne
  · exact sortedValues_getD_mem values (values.length - 1) (by omega)
  · exact le_sortedValues_getD_last values hne
  · omega
  · omega
  · omega

/-- Witness for C9 at the spec's concrete sample. -/
theorem c9_latency_stats_witness :
    ([10, 20, 30, 40, 50] : List ℤ) ≠ [] ∧
    ∃ st, computeSingleLatencyStats [10, 20, 30, 40, 50] = some st ∧
      st.avg_ms = pyRoundDiv ([10, 20, 30, 40, 50] : List ℤ).sum 5 ∧
      st.min_ms ∈ ([10, 20, 30, 40, 50] : List ℤ) ∧
      (∀ x ∈ ([10, 20, 30, 40, 50] : List ℤ), st.min_ms ≤ x) ∧
      st.max_ms ∈ ([10, 20, 30, 40, 50] : List ℤ) ∧
      (∀ x ∈ ([10, 20, 30, 40, 50] : List ℤ), x ≤ st.max_ms) ∧
      st.p50_ms = (sortedValues [10, 20, 30, 40, 50]).getD 2 0 ∧
      st.p95_ms = (sortedValues [10, 20, 30, 40, 50]).getD 4 0 ∧
      st.p99_ms = (sortedValues [10, 20, 30, 40, 50]).getD 4 0 ∧
      (5 : ℕ) / 2 < 5 ∧ (19 * 5 : ℕ) / 20 < 5 ∧ (99 * 5 : ℕ) / 100 < 5 :=
  ⟨by decide, c9_latency_stats.2.1 [10, 20, 30, 40, 50] (by decide)⟩

theorem normalizeCircuitReason_mem (s : String) :
    normalizeCircuitReason s ∈ CIRCUIT_FAILURE_TYPES := by
  unfold normalizeCircuitReason
  cases hl : CIRCUIT_REASON_MAP.lookup s with
  | none => decide
  | some v =>
    have hmem := lookup_mem hl
    have hall : ∀ p ∈ CIRCUIT_REASON_MAP, p.2 ∈ CIRCUIT_FAILURE_TYPES := by decide
    simpa using hall _ hmem

theorem mergeFold_spec (cfs : List Rec) :
    ∀ (fps : List (Option String)) (surv : List Rec) (keys : List String),
      ∃ ds dk,
        (cfs.foldl mergeStep (fps, surv, keys)).2.1 = surv ++ ds ∧
        (cfs.foldl mergeStep (fps, surv, keys)).2.2 = keys ++ dk ∧
        ds.length = dk.length ∧
        (∀ k ∈ dk, k ∈ CIRCUIT_FAILURE_TYPES) ∧
        (∀ r ∈ ds, ∀ f, r.exit_fingerprint = some f → some f ∉ fps) := by
  induction cfs with
  | nil =>
    intro fps surv keys
    exact ⟨[], [], by simp, by simp, rfl, by simp, by simp⟩
  | cons cf rest ih =>
    intro fps surv keys
    have hstep : (cf :: rest).foldl mergeStep (fps, surv, keys) =
        rest.foldl mergeStep (mergeStep (fps, surv, keys) cf) := rfl
    rw [hstep]
    cases hfp : cf.exit_fingerprint with
    | none =>
      have hms : mergeStep (fps, surv, keys) cf = (fps, surv, keys) := by
        unfold mergeStep
        rw [hfp]
      rw [hms]
      exact ih fps surv keys
    | some f =>
      by_cases hc : f ≠ "" ∧ some f ∉ fps
      · have hms : mergeStep (fps, surv, keys) cf =
            (some f :: fps, surv ++ [cf],
             keys ++ [normalizeCircuitReason (cf.circuit_reason.getD "circuit_failed")]) := by
          unfold mergeStep
          rw [hfp]
          exact if_pos hc
        rw [hms]
        obtain ⟨ds', dk', h1, h2, h3, h4, h5⟩ := ih (some f :: fps) (surv ++ [cf])
          (keys ++ [normalizeCircuitReason (cf.circuit_reason.getD "circuit_failed")])
        refine ⟨cf :: ds', normalizeCircuitReason (cf.circuit_reason.getD "circuit_failed") :: dk',
          ?_, ?_, by simp [h3], ?_, ?_⟩
        · rw [h1]
          simp
        · rw [h2]
          simp
        · intro k hk
          rcases List.mem_cons.mp hk with rfl | hk'
          · exact normalizeCircuitReason_mem _
          · exact h4 k hk'
        · intro r hr f' hf'
          rcases List.mem_cons.mp hr with rfl | hr'
          · rw [hfp] at hf'
            have : f' = f := by
              injection hf' with hff
              exact hff.symm
            subst this
            exact hc.2
          · have := h5 r hr' f' hf'
            intro hmem
            exact this (List.mem_cons_of_mem _ hmem)
      · have hms : mergeStep (fps, surv, keys) cf = (fps, surv, keys) := by
          unfold mergeStep
          rw [hfp]
          exact if_neg hc
        rw [hms]
        exact ih fps surv keys

theorem circuitSurvivors_spec (results cfs : List Rec) :
    (circuitSurvivors results cfs).1.length = (circuitSurvivors results cfs).2.length ∧
    (∀ k ∈ (circuitSurvivors results cfs).2, k ∈ CIRCUIT_FAILURE_TYPES) ∧
    (∀ r ∈ (circuitSurvivors results cfs).1, ∀ f, r.exit_fingerprint = some f →
      some f ∉ results.map (fun x => x.exit_fingerprint)) := by
  obtain ⟨ds, dk, h1, h2, h3, h4, h5⟩ :=
    mergeFold_spec cfs (results.map (fun x => x.exit_fingerprint)) [] []
  have hs : (circuitSurvivors results cfs).1 = ds := by
    unfold circuitSurvivors
    simpa using h1
  have hk : (circuitSurvivors results cfs).2 = dk := by
    unfold circuitSurvivors
    simpa using h2
  rw [hs, hk]
  exact ⟨h3, h4, h5⟩

theorem sum_map_add {α : Type} (l : List α) (f g : α → ℕ) :
    (l.map (fun a => f a + g a)).sum = (l.map f).sum + (l.map g).sum := by
  induction l with
  | nil => rfl
  | cons a t ih =>
    simp only [List.map_cons, List.sum_cons, ih]
    omega

theorem sum_map_beq_zero (types : List String) (k : String) (hk : k ∉ types) :
    (types.map (fun t => if k == t then 1 else 0)).sum = 0 := by
  induction types with
  | nil => rfl
  | cons t ts ih =>
    have hne : ¬ (k == t) = true := by
      intro hbeq
      rw [beq_iff_eq] at hbeq
      subst hbeq
      exact hk (List.mem_cons_self _ _)
    simp only [List.map_cons, List.sum_cons, if_neg hne]
    have hk' : k ∉ ts := fun h => hk (List.mem_cons_of_mem _ h)
    simpa using ih hk'

theorem sum_map_beq_one (types : List String) (k : String) (hnd : types.Nodup)
    (hk : k ∈ types) : (types.map (fun t => if k == t then 1 else 0)).sum = 1 := by
  induction types with
  | nil => simp at hk
  | cons t ts ih =>
    obtain ⟨htn, hnd'⟩ := List.nodup_cons.mp hnd
    rcases List.mem_cons.mp hk with rfl | hk'
    · have hbeq : (k == k) = true := by simp
      simp only [List.map_cons, List.sum_cons, if_pos hbeq]
      have : (ts.map (fun t => if k == t then 1 else 0)).sum = 0 := sum_map_beq_zero ts k htn
      omega
    · have hne : ¬ (k == t) = true := by
        intro hbeq
        rw [beq_iff_eq] at hbeq
        subst hbeq
        exact htn hk'
      simp only [List.map_cons, List.sum_cons, if_neg hne]
      have := ih hnd' hk'
      omega

theorem sum_map_count_eq_length (types keys : List String) (hnd : types.Nodup)
    (hall : ∀ k ∈ keys, k ∈ types) :
    (types.map (fun t => keys.count t)).sum = keys.length := by
  induction keys with
  | nil => simp
  | cons k ks ih =>
    have hcnt : ∀ t : String, (k :: ks).count t = ks.count t + (if k == t then 1 else 0) := by
      intro t
      rw [List.count_cons]
    have hmap : (types.map (fun t => (k :: ks).count t)) =
        types.map (fun t => ks.count t + (if k == t then 1 else 0)) := by
      apply List.map_congr_left
      intro t _
      exact hcnt t
    rw [hmap, sum_map_add]
    have hone := sum_map_beq_one types k hnd (hall k (List.mem_cons_self _ _))
    have hks := ih (fun x hx => hall x (List.mem_cons_of_mem _ hx))
    simp only [List.length_cons]
    omega

theorem processRecord_fingerprint (prev : List Rec) (r : Rec) :
    (processRecord prev r).exit_fingerprint = r.exit_fingerprint := rfl

theorem processRecord_status (prev : List Rec) (r : Rec) :
    (processRecord prev r).status = r.status := rfl

theorem processRecord_consecutive (prev : List Rec) (r : Rec) :
    (processRecord prev r).consecutive_failures = some (streakOf prev r) := rfl

/-- C3: infrastructure precedence.  For a target identity carried by
some measurement result and also by some infrastructure (circuit)
failure record, the merge discards every infrastructure record with
that identity — none survives into the report — while the measurement
results for the identity all appear, processed, in the final results
list. -/
theorem c3_infrastructure_precedence (results cfs prev : List Rec) (f : String)
    (hmeas : some f ∈ results.map (fun x => x.exit_fingerprint))
    (hinf : ∃ cf ∈ cfs, cf.exit_fingerprint = some f) :
    (∀ s ∈ (circuitSurvivors results cfs).1, s.exit_fingerprint ≠ some f) ∧
    (∀ r ∈ results, r.exit_fingerprint = some f →
      processRecord prev r ∈ (aggregateResults results cfs prev).results ∧
      (processRecord prev r).exit_fingerprint = some f) := by
  obtain ⟨hlen, hkeys, hfresh⟩ := circuitSurvivors_spec results cfs
  constructor
  · intro s hs hsf
    exact hfresh s hs f hsf hmeas
  · intro r hr hrf
    constructor
    · show processRecord prev r ∈ (mergedResults results cfs).map (processRecord prev)
      exact List.mem_map_of_mem _ (List.mem_append_left _ hr)
    · rw [processRecord_fingerprint, hrf]

/-- Witness for C3 at a concrete input: the target `A` was measured
(a timeout) and also reported as a circuit failure; the circuit
record is discarded and the measurement survives. -/
theorem c3_infrastructure_precedence_witness :
    (some "A" ∈ ([({ exit_fingerprint := some "A", status := some "timeout" } : Rec)].map
        (fun x => x.exit_fingerprint)) ∧
     ∃ cf ∈ [({ exit_fingerprint := some "A", status := some "relay_unreachable",
                circuit_reason := some "circuit_timeout" } : Rec)],
       cf.exit_fingerprint = some "A") ∧
    ((∀ s ∈ (circuitSurvivors
          [({ exit_fingerprint := some "A", status := some "timeout" } : Rec)]
          [({ exit_fingerprint := some "A", status := some "relay_unreachable",
              circuit_reason := some "circuit_timeout" } : Rec)]).1,
        s.exit_fingerprint ≠ some "A") ∧
     (∀ r ∈ [({ exit_fingerprint := some "A", status := some "timeout" } : Rec)],
        r.exit_fingerprint = some "A" →
        processRecord [] r ∈ (aggregateResults
            [({ exit_fingerprint := some "A", status := some "timeout" } : Rec)]
            [({ exit_fingerprint := some "A", status := some "relay_unreachable",
                circuit_reason := some "circuit_timeout" } : Rec)] []).results ∧
        (processRecord [] r).exit_fingerprint = some "A")) :=
  ⟨⟨by decide, by decide⟩,
   c3_infrastructure_precedence
     [({ exit_fingerprint := some "A", status := some "timeout" } : Rec)]
     [({ exit_fingerprint := some "A", status := some "relay_unreachable",
         circuit_reason := some "circuit_timeout" } : Rec)] [] "A"
     (by decide) (by decide)⟩

/-- C4: category-sum invariant.  The 17 `circuit_*` counts in the
output metadata sum to exactly the number of infrastructure-failure
records appended to the output results list: circuit records dropped
as duplicates or because their identity was already tested contribute
to no count. -/
theorem c4_category_sum (results cfs prev : List Rec) :
    (CIRCUIT_FAILURE_TYPES.map
        (fun t => (aggregateResults results cfs prev).circuitCount t)).sum =
      (circuitSurvivors results cfs).1.length ∧
    (aggregateResults results cfs prev).results.length =
      results.length + (circuitSurvivors results cfs).1.length := by
  obtain ⟨hlen, hkeys, hfresh⟩ := circuitSurvivors_spec results cfs
  constructor
  · have hnd : CIRCUIT_FAILURE_TYPES.Nodup := by decide
    have hsum := sum_map_count_eq_length CIRCUIT_FAILURE_TYPES
      (circuitSurvivors results cfs).2 hnd hkeys
    have hck : ∀ t, (aggregateResults results cfs prev).circuitCount t =
        (circuitSurvivors results cfs).2.count t := fun t => rfl
    calc (CIRCUIT_FAILURE_TYPES.map
            (fun t => (aggregateResults results cfs prev).circuitCount t)).sum
        = (CIRCUIT_FAILURE_TYPES.map
            (fun t => (circuitSurvivors results cfs).2.count t)).sum := by
          apply congrArg
          apply List.map_congr_left
          intro t _
          exact hck t
      _ = (circuitSurvivors results cfs).2.length := hsum
      _ = (circuitSurvivors results cfs).1.length := hlen.symm
  · show ((mergedResults results cfs).map (processRecord prev)).length = _
    rw [List.length_map]
    unfold mergedResults
    rw [List.length_append]

theorem getD_map_processRecord (prev : List Rec) (l : List Rec) (i : ℕ) (hi : i < l.length) :
    (l.map (processRecord prev)).getD i defaultRec =
      processRecord prev (l.getD i defaultRec) := by
  have him : i < (l.map (processRecord prev)).length := by
    rw [List.length_map]
    exact hi
  rw [List.getD_eq_get _ _ him, List.getD_eq_get _ _ hi]
  simp [List.get_map]

/-- C5: streak-tracking rule.  Every record of the output results list
carries a consecutive-failure count equal to 0 when its outcome is
success, and otherwise to the prior count plus one — where the prior
count is read from the previous report's record for the same target
identity only if that record's own outcome was not success, and is 0
when that record was a success, lacks a stored count, or the identity
is absent from the previous report. -/
theorem c5_streak_rule (results cfs prev : List Rec) (i : ℕ)
    (hi : i < (mergedResults results cfs).length) :
    ((aggregateResults results cfs prev).results.getD i defaultRec).consecutive_failures =
      some (if ((mergedResults results cfs).getD i defaultRec).status.getD "unknown" = "success"
            then 0
            else (match prevLookup prev
                    ((mergedResults results cfs).getD i defaultRec).exit_fingerprint with
                  | none => 0
                  | some p => if p.status = some "success" then 0
                              else p.consecutive_failures.getD 0) + 1) := by
  show (((mergedResults results cfs).map (processRecord prev)).getD i
      defaultRec).consecutive_failures = _
  rw [getD_map_processRecord prev _ i hi, processRecord_consecutive]
  unfold streakOf priorCount
  rfl

/-- Witness for C5 at the spec's concrete example: the previous report
holds target `X` with a timeout and streak 3; `X` times out again and
the new record carries streak 4. -/
theorem c5_streak_rule_witness :
    (0 < (mergedResults
        [({ exit_fingerprint := some "X", status := some "timeout" } : Rec)] []).length) ∧
    ((aggregateResults
        [({ exit_fingerprint := some "X", status := some "timeout" } : Rec)] []
        [({ exit_fingerprint := some "X", status := some "timeout",
            consecutive_failures := some 3 } : Rec)]).results.getD 0
        defaultRec).consecutive_failures =
      some (if ((mergedResults
              [({ exit_fingerprint := some "X", status := some "timeout" } : Rec)] []).getD 0
              defaultRec).status.getD "unknown" = "success"
            then 0
            else (match prevLookup
                    [({ exit_fingerprint := some "X", status := some "timeout",
                        consecutive_failures := some 3 } : Rec)]
                    ((mergedResults
                      [({ exit_fingerprint := some "X", status := some "timeout" } : Rec)]
                      []).getD 0 defaultRec).exit_fingerprint with
                  | none => 0
                  | some p => if p.status = some "success" then 0
                              else p.consecutive_failures.getD 0) + 1) ∧
    ((aggregateResults
        [({ exit_fingerprint := some "X", status := some "timeout" } : Rec)] []
        [({ exit_fingerprint := some "X", status := some "timeout",
            consecutive_failures := some 3 } : Rec)]).results.getD 0
        defaultRec).consecutive_failures = some 4 :=
  ⟨by decide,
   c5_streak_rule
     [({ exit_fingerprint := some "X", status := some "timeout" } : Rec)] []
     [({ exit_fingerprint := some "X", status := some "timeout",
         consecutive_failures := some 3 } : Rec)] 0 (by decide),
   by decide⟩

/-- C6 counterexample: a single target that times out.  With no
previous report the written report carries streak 1; feeding that
report back as the previous report of a second run over the same
inputs yields streak 2, not the same value. -/
theorem c6_counterexample : ¬ claimC6statement := by
  intro h
  have hx := h [({ exit_fingerprint := some "A", status := some "timeout" } : Rec)] [] []
  revert hx
  decide

theorem filter_map_processRecord (prev : List Rec) (l : List Rec) (f : String) :
    (l.map (processRecord prev)).filter (fun x => x.exit_fingerprint == some f) =
      (l.filter (fun x => x.exit_fingerprint == some f)).map (processRecord prev) := by
  rw [List.filter_map]
  have hpred : ((fun x => x.exit_fingerprint == some f) ∘ processRecord prev) =
      (fun x : Rec => x.exit_fingerprint == some f) := by
    funext x
    show ((processRecord prev x).exit_fingerprint == some f) = _
    rw [processRecord_fingerprint]
  rw [hpred]

/-- C6 as amended: writing a report out and reading it back as the
previous report of a second run over identical inputs preserves the
streak values exactly for success records (both runs give 0), while
every non-success record's value strictly increments — the second
run reads back precisely the count the first run wrote and adds one. -/
theorem c6_amended_roundtrip (results cfs prev0 : List Rec) (f : String) (r : Rec)
    (huniq : (mergedResults results cfs).filter
        (fun x => x.exit_fingerprint == some f) = [r])
    (hf : f ≠ "") :
    (aggregateResults results cfs prev0).results.filter
        (fun x => x.exit_fingerprint == some f) = [processRecord prev0 r] ∧
    (aggregateResults results cfs
        (aggregateResults results cfs prev0).results).results.filter
        (fun x => x.exit_fingerprint == some f) =
      [processRecord (aggregateResults results cfs prev0).results r] ∧
    (if r.status.getD "unknown" = "success" then
        (processRecord (aggregateResults results cfs prev0).results r).consecutive_failures
            = some 0 ∧
        (processRecord prev0 r).consecutive_failures = some 0
     else
        (processRecord (aggregateResults results cfs prev0).results r).consecutive_failures
            = some ((processRecord prev0 r).consecutive_failures.getD 0 + 1)) := by
  have hfil1 : (aggregateResults results cfs prev0).results.filter
      (fun x => x.exit_fingerprint == some f) = [processRecord prev0 r] := by
    show ((mergedResults results cfs).map (processRecord prev0)).filter _ = _
    rw [filter_map_processRecord, huniq]
    rfl
  have hrf : r.exit_fingerprint = some f := by
    have hmem : r ∈ (mergedResults results cfs).filter
        (fun x => x.exit_fingerprint == some f) := by
      rw [huniq]
      exact List.mem_cons_self _ _
    have := (List.mem_filter.mp hmem).2
    rwa [beq_iff_eq] at this
  refine ⟨hfil1, ?_, ?_⟩
  · show ((mergedResults results cfs).map
        (processRecord (aggregateResults results cfs prev0).results)).filter _ = _
    rw [filter_map_processRecord, huniq]
    rfl
  · by_cases hsucc : r.status.getD "unknown" = "success"
    · rw [if_pos hsucc]
      constructor <;>
        (rw [processRecord_consecutive]; unfold streakOf; rw [if_pos hsucc])
    · rw [if_neg hsucc]
      rw [processRecord_consecutive]
      have hlook : prevLookup (aggregateResults results cfs prev0).results
          r.exit_fingerprint = some (processRecord prev0 r) := by
        rw [hrf]
        show (if f = "" then none
              else (List.filter (fun pr => pr.exit_fingerprint == some f)
                (aggregateResults results cfs prev0).results).getLast?) = _
        rw [if_neg hf, hfil1]
        rfl
      have hnots : r.status ≠ some "success" := by
        intro hcon
        rw [hcon] at hsucc
        exact hsucc rfl
      have hps : (processRecord prev0 r).status = r.status := processRecord_status _ _
      have hpns : ¬ (processRecord prev0 r).status = some "success" := by
        rw [hps]
        exact hnots
      show some (streakOf (aggregateResults results cfs prev0).results r) = _
      unfold streakOf priorCount
      rw [if_neg hsucc, hlook]
      show some ((if (processRecord prev0 r).status = some "success" then 0
                  else (processRecord prev0 r).consecutive_failures.getD 0) + 1) = _
      rw [if_neg hpns]

/-- Witness for the amended C6 at a concrete input: one timing-out
target; the first run writes streak 1, the second run reads it back
and writes 2. -/
theorem c6_amended_roundtrip_witness :
    ((mergedResults [({ exit_fingerprint := some "A", status := some "timeout" } : Rec)]
        []).filter (fun x => x.exit_fingerprint == some "A") =
      [({ exit_fingerprint := some "A", status := some "timeout" } : Rec)]) ∧
    ("A" : String) ≠ "" ∧
    ((aggregateResults [({ exit_fingerprint := some "A", status := some "timeout" } : Rec)]
        [] []).results.filter (fun x => x.exit_fingerprint == some "A") =
      [processRecord [] ({ exit_fingerprint := some "A", status := some "timeout" } : Rec)] ∧
     (aggregateResults [({ exit_fingerprint := some "A", status := some "timeout" } : Rec)]
        [] (aggregateResults
              [({ exit_fingerprint := some "A", status := some "timeout" } : Rec)] []
              []).results).results.filter (fun x => x.exit_fingerprint == some "A") =
      [processRecord (aggregateResults
          [({ exit_fingerprint := some "A", status := some "timeout" } : Rec)] []
          []).results ({ exit_fingerprint := some "A", status := some "timeout" } : Rec)] ∧
     (if ({ exit_fingerprint := some "A", status := some "timeout" } : Rec).status.getD
          "unknown" = "success" then
        (processRecord (aggregateResults
            [({ exit_fingerprint := some "A", status := some "timeout" } : Rec)] []
            []).results
          ({ exit_fingerprint := some "A", status := some "timeout" } : Rec)).consecutive_failures
            = some 0 ∧
        (processRecord []
          ({ exit_fingerprint := some "A", status := some "timeout" } : Rec)).consecutive_failures
            = some 0
      else
        (processRecord (aggregateResults
            [({ exit_fingerprint := some "A", status := some "timeout" } : Rec)] []
            []).results
          ({ exit_fingerprint := some "A", status := some "timeout" } : Rec)).consecutive_failures
            = some ((processRecord []
                ({ exit_fingerprint := some "A",
                   status := some "timeout" } : Rec)).consecutive_failures.getD 0 + 1))) :=
  ⟨by decide, by decide,
   c6_amended_roundtrip
     [({ exit_fingerprint := some "A", status := some "timeout" } : Rec)] [] [] "A"
     ({ exit_fingerprint := some "A", status := some "timeout" } : Rec)
     (by decide) (by decide)⟩

theorem lookup_aset_self {α β : Type} [BEq α] [LawfulBEq α] (m : List (α × β)) (k : α) (v : β) :
    (aset m k v).lookup k = some v := by
  induction m with
  | nil => simp [aset, List.lookup]
  | cons p t ih =>
    obtain ⟨k0, v0⟩ := p
    by_cases hk : k0 == k
    · unfold aset
      rw [if_pos hk]
      simp [List.lookup]
    · unfold aset
      rw [if_neg hk]
      have hkk : ¬ (k == k0) = true := by
        intro hbeq
        rw [beq_iff_eq] at hbeq
        subst hbeq
        simp at hk
      rw [List.lookup]
      simp only [hkk, Bool.false_eq_true, if_neg, if_false]
      exact ih

theorem lookup_aset_ne {α β : Type} [BEq α] [LawfulBEq α] (m : List (α × β)) (k k' : α) (v : β)
    (h : k' ≠ k) : (aset m k v).lookup k' = m.lookup k' := by
  induction m with
  | nil =>
    simp only [aset, List.lookup]
    have : ¬ (k' == k) = true := by
      intro hbeq
      exact h (by rwa [beq_iff_eq] at hbeq)
    simp [this]
  | cons p t ih =>
    obtain ⟨k0, v0⟩ := p
    by_cases hk : k0 == k
    · unfold aset
      rw [if_pos hk]
      have hk0 : k0 = k := by rwa [beq_iff_eq] at hk
      subst hk0
      have h1 : ¬ (k' == k0) = true := by
        intro hbeq
        exact h (by rwa [beq_iff_eq] at hbeq)
      rw [List.lookup, List.lookup]
      simp [h1]
    · unfold aset
      rw [if_neg hk]
      rw [List.lookup, List.lookup]
      by_cases h2 : k' == k0
      · simp [h2]
      · simp only [h2, Bool.false_eq_true, if_neg, if_false]
        exact ih

theorem loadStep_lookup_other (nm : String) (acc : SourceMap) (r : Rec) (f : String)
    (hne : r.exit_fingerprint ≠ some f ∨ r.exit_fingerprint = some "") :
    (loadStep nm acc r).lookup f = acc.lookup f := by
  unfold loadStep
  cases hfp : r.exit_fingerprint with
  | none => rfl
  | some f' =>
    show (if f' ≠ "" then aset acc f' (aset ((acc.lookup f').getD []) nm r)
          else acc).lookup f = acc.lookup f
    by_cases hemp : f' = ""
    · rw [if_neg (by simp [hemp])]
    · rw [if_pos hemp]
      have hff : f ≠ f' := by
        rcases hne with h | h
        · intro hcon
          rw [hfp, hcon] at h
          exact h rfl
        · rw [hfp] at h
          injection h with h2
          exact absurd h2 hemp
      exact lookup_aset_ne _ _ _ _ hff

theorem foldl_loadStep_lookup_other (l : List Rec) (nm : String) (f : String) :
    ∀ acc : SourceMap, (∀ r ∈ l, r.exit_fingerprint ≠ some f) →
      (l.foldl (loadStep nm) acc).lookup f = acc.lookup f := by
  induction l with
  | nil => intro acc _; rfl
  | cons r t ih =>
    intro acc hall
    have h1 : (r :: t).foldl (loadStep nm) acc = t.foldl (loadStep nm) (loadStep nm acc r) := rfl
    rw [h1, ih (loadStep nm acc r) (fun x hx => hall x (List.mem_cons_of_mem _ hx))]
    exact loadStep_lookup_other nm acc r f (Or.inl (hall r (List.mem_cons_self _ _)))

theorem loadSource_slot (nm f : String) (hf : f ≠ "") (l1 l2 : List Rec) (r2 : Rec)
    (acc : SourceMap) (hr2 : r2.exit_fingerprint = some f)
    (hlast : ∀ r ∈ l2, r.exit_fingerprint ≠ some f) :
    slotOf (loadSource nm (l1 ++ r2 :: l2) acc) f nm = some r2 := by
  unfold loadSource
  rw [List.foldl_append]
  have h1 : (r2 :: l2).foldl (loadStep nm) (l1.foldl (loadStep nm) acc) =
      l2.foldl (loadStep nm) (loadStep nm (l1.foldl (loadStep nm) acc) r2) := rfl
  rw [h1]
  unfold slotOf
  rw [foldl_loadStep_lookup_other l2 nm f _ hlast]
  have hstep : (loadStep nm (l1.foldl (loadStep nm) acc) r2).lookup f =
      some (aset (((l1.foldl (loadStep nm) acc).lookup f).getD []) nm r2) := by
    unfold loadStep
    rw [hr2]
    show (if f ≠ "" then
            aset (l1.foldl (loadStep nm) acc) f
              (aset (((l1.foldl (loadStep nm) acc).lookup f).getD []) nm r2)
          else l1.foldl (loadStep nm) acc).lookup f = _
    rw [if_pos hf]
    exact lookup_aset_self _ _ _
  rw [hstep]
  simp only [Option.getD_some]
  exact lookup_aset_self _ _ _

/-- C10: silent instance-name collision.  Loading two source
directories that derive the same instance name is a total operation
(no error is raised), and for a target identity reported by both
sources, the later source's record occupies the single
`(identity, instance-name)` slot before reconciliation runs,
replacing the earlier source's record.  `r2` is the later source's
(only) record for the identity. -/
theorem c10_collision_overwrites (d1 d2 : String) (files1 l1 l2 : List Rec) (r2 : Rec)
    (f : String)
    (hname : getInstanceName d1 = getInstanceName d2)
    (hf : f ≠ "")
    (hr2 : r2.exit_fingerprint = some f)
    (hlast : ∀ r ∈ l2, r.exit_fingerprint ≠ some f)
    (hboth : ∃ r1 ∈ files1, r1.exit_fingerprint = some f) :
    slotOf (loadAllSourceResults [(d1, files1), (d2, l1 ++ r2 :: l2)]).1 f
        (getInstanceName d1) = some r2 ∧
    (loadAllSourceResults [(d1, files1), (d2, l1 ++ r2 :: l2)]).2 =
      [getInstanceName d1, getInstanceName d2] := by
  constructor
  · have hmap : (loadAllSourceResults [(d1, files1), (d2, l1 ++ r2 :: l2)]).1 =
        loadSource (getInstanceName d2) (l1 ++ r2 :: l2)
          (loadSource (getInstanceName d1) files1 []) := rfl
    rw [hmap, hname]
    exact loadSource_slot (getInstanceName d2) f hf l1 l2 r2 _ hr2 hlast
  · rfl

/-- Witness for C10 at a concrete input: the directories
`analysis_2026-01-17_15-49-26_cv2` and `run_b_cv2` both derive the
instance name `cv2`; both report fingerprint `F`, and the second
source's record wins the slot. -/
theorem c10_collision_overwrites_witness :
    (getInstanceName "analysis_2026-01-17_15-49-26_cv2" = getInstanceName "run_b_cv2" ∧
     ("F" : String) ≠ "" ∧
     ({ exit_fingerprint := some "F", status := some "success" } : Rec).exit_fingerprint =
        some "F" ∧
     (∃ r1 ∈ [({ exit_fingerprint := some "F", status := some "timeout" } : Rec)],
        r1.exit_fingerprint = some "F")) ∧
    slotOf (loadAllSourceResults
        [("analysis_2026-01-17_15-49-26_cv2",
          [({ exit_fingerprint := some "F", status := some "timeout" } : Rec)]),
         ("run_b_cv2",
          [] ++ ({ exit_fingerprint := some "F", status := some "success" } : Rec) :: [])]).1
      "F" (getInstanceName "analysis_2026-01-17_15-49-26_cv2") =
      some ({ exit_fingerprint := some "F", status := some "success" } : Rec) ∧
    (loadAllSourceResults
        [("analysis_2026-01-17_15-49-26_cv2",
          [({ exit_fingerprint := some "F", status := some "timeout" } : Rec)]),
         ("run_b_cv2",
          [] ++ ({ exit_fingerprint := some "F", status := some "success" } : Rec) :: [])]).2 =
      [getInstanceName "analysis_2026-01-17_15-49-26_cv2", getInstanceName "run_b_cv2"] :=
  ⟨⟨by decide, by decide, by decide, by decide⟩,
   c10_collision_overwrites "analysis_2026-01-17_15-49-26_cv2" "run_b_cv2"
     [({ exit_fingerprint := some "F", status := some "timeout" } : Rec)] [] []
     ({ exit_fingerprint := some "F", status := some "success" } : Rec) "F"
     (by decide) (by decide) (by decide) (by decide) (by decide)⟩
